import Mathlib

/-!
Shallow embedding of the node-mongo data-access layer.

Sources:
* `src/base/helpers.js` (MongoHelpers: `buildOrder`, `buildSortOptions`,
  `buildFindOptions`)
* `src/base/adapter.js` (BaseAdapter: the generic CRUD operations)
* `src/adapters/user-activity.js` (UserActivityAdapter: `upsertOne`
  override, `findAroundQuery`, `findManyAround`, `findOneAround`)

JavaScript strings are embedded as `List Char`, JavaScript objects used as
documents as association lists `List (String × Val)` in insertion order,
and `null`/`undefined` arguments as `Option`.  The external `node-helpers`
utilities (`Data.isEmpty`, `Model.toSimpleObject`) are embedded at their
boundary: `isEmpty` is true for a missing value, `null`, an empty string or
an object with no keys; `toSimpleObject` is the generic shallow copy of the
non-null fields.  The store (MongoDB driver) is embedded at its boundary as
well: each adapter operation either fails its guard assertions
synchronously (`Except.error`, no store command issued) or produces the
store command it sends (`Except.ok`), and the driver's result envelopes are
explicit structures fed to the operations' result-normalization functions.
-/

/-- JavaScript strings, embedded character by character. -/
abbrev Str := List Char

/-- `String.prototype.trim`: drop whitespace from both ends. -/
def jsTrim (s : Str) : Str :=
  ((s.dropWhile Char.isWhitespace).reverse.dropWhile Char.isWhitespace).reverse

/-- `String.prototype.split(sep)` for a one-character separator.
`jsSplit sep [] = [[]]`, matching `''.split(',') = ['']`. -/
def jsSplit (sep : Char) : Str → List Str
  | [] => [[]]
  | c :: cs =>
    match jsSplit sep cs with
    | [] => [[]]
    | t :: ts => if c = sep then [] :: t :: ts else (c :: t) :: ts

/-- `Array.prototype.join(sep)` for a one-character separator. -/
def jsJoin (sep : Char) : List Str → Str
  | [] => []
  | [t] => t
  | t :: ts => t ++ sep :: jsJoin sep ts

/-- JavaScript object property assignment `results[k] = v` on an object
embedded as an association list: an existing key is overwritten in place,
a new key is appended. -/
def objSet (k : Str) (v : Int) : List (Str × Int) → List (Str × Int)
  | [] => [(k, v)]
  | (k₁, v₁) :: rest =>
    if k₁ = k then (k, v) :: rest else (k₁, v₁) :: objSet k v rest

/-- One step of `buildArrayFunc`'s `forEach` body (helpers.js lines 67-77):
trim the token, a leading `-` is stripped and maps the field to `-1`,
otherwise the field maps to `1`. -/
def orderToken (res : List (Str × Int)) (e : Str) : List (Str × Int) :=
  let e₁ := jsTrim e
  if e₁.take 1 = ['-'] then objSet (e₁.drop 1) (-1) res
  else objSet e₁ 1 res

/-- `buildArrayFunc` from `MongoHelpers.buildOrder` (helpers.js lines 66-80). -/
def buildArrayFunc (arrs : List Str) : List (Str × Int) :=
  arrs.foldl orderToken []

/-- The shapes an order specification can take in JavaScript:
`null`/`undefined`, a string, an array of strings, or a plain object
(already a field→direction map). -/
inductive OrderInput where
  | jsNull : OrderInput
  | str : Str → OrderInput
  | arr : List Str → OrderInput
  | map : List (Str × Int) → OrderInput

/-- JavaScript truthiness of an order specification: `null`/`undefined` and
the empty string are falsy; arrays and objects are always truthy. -/
def orderTruthy : OrderInput → Bool
  | .jsNull => false
  | .str s => s ≠ []
  | .arr _ => true
  | .map _ => true

/-- `MongoHelpers.buildOrder` (helpers.js lines 61-92).  A falsy input
(`null`, `undefined`, `''`) yields `null`; an array is converted token by
token; an object is returned verbatim; a non-empty string is split on `,`
and converted token by token. -/
def buildOrder : OrderInput → Option (List (Str × Int))
  | .jsNull => none
  | .arr a => some (buildArrayFunc a)
  | .map m => some m
  | .str s => if s = [] then none else some (buildArrayFunc (jsSplit ',' s))

/-- The option object handed to the find helpers: `order`, `sort` (raw
order specifications) plus the cursor options `skip` and `limit`. -/
structure QueryOpts where
  order : OrderInput
  sort : OrderInput
  skip : Option Int
  limit : Option Int

/-- `opts || {}`: the default options object. -/
def emptyOpts : QueryOpts :=
  ⟨OrderInput.jsNull, OrderInput.jsNull, none, none⟩

/-- JavaScript values as they appear in documents: `null`, strings,
numbers, booleans, `ObjectID` instances and nested plain objects. -/
inductive Val where
  | vNull : Val
  | vStr : String → Val
  | vInt : Int → Val
  | vBool : Bool → Val
  | vId : String → Val
  | vDoc : List (String × Val) → Val

/-- A document: a JavaScript plain object in insertion order. -/
abbrev Doc := List (String × Val)

/-- Property read `d[k]`: `none` embeds `undefined`. -/
def lookupField (k : String) : Doc → Option Val
  | [] => none
  | (k₁, v) :: rest => if k₁ = k then some v else lookupField k rest

/-- Property assignment `d[k] = v`: overwrite in place or append. -/
def setField (k : String) (v : Val) : Doc → Doc
  | [] => [(k, v)]
  | (k₁, v₁) :: rest =>
    if k₁ = k then (k, v) :: rest else (k₁, v₁) :: setField k v rest

/-- JavaScript truthiness of a value: `null`, `''`, `0` and `false` are
falsy; objects (including `ObjectID`s) are truthy. -/
def jsTruthy : Val → Bool
  | .vNull => false
  | .vStr s => s ≠ ""
  | .vInt n => n ≠ 0
  | .vBool b => b
  | .vId _ => true
  | .vDoc _ => true

/-- Truthiness of a property read, `undefined` being falsy. -/
def fieldTruthy (k : String) (d : Doc) : Bool :=
  (lookupField k d).elim false jsTruthy

/-- `new ObjectID(x)`: parse an identifier value into an identifier.
The embedding keeps the parse abstract beyond carrying the raw string. -/
def objectID : Val → Val
  | .vStr s => .vId s
  | .vId s => .vId s
  | _ => .vId ""

/-- `helpers.Data.isEmpty` (external `node-helpers` boundary): true for
`undefined`, `null`, an empty string, or an object without keys. -/
def isEmptyVal : Option Val → Bool
  | none => true
  | some .vNull => true
  | some (.vStr s) => s = ""
  | some (.vDoc d) => d.isEmpty
  | some _ => false

/-- `helpers.Data.isEmpty` applied to a possibly-null document. -/
def isEmptyOptDoc : Option Doc → Bool
  | none => true
  | some d => d.isEmpty

/-- `helpers.Model.toSimpleObject` (external `node-helpers` boundary): the
generic shallow copy of the non-null fields of a possibly-null object. -/
def toSimpleObject (d : Option Doc) : Doc :=
  (d.getD []).filter (fun p => !(p.2 matches Val.vNull))

/-- The entity-schema capability contract consumed by the adapter
(spec §6): collection name, optional default sort, the projections, the
optional query projection and the optional pre-save hook.  A model
instance's state is embedded as a `Doc`. -/
structure ModelClass where
  collectionName : String
  defaultOrder : OrderInput
  construct : Option Doc → Doc
  beforeSave : Option (Bool → Doc → Doc)
  toInsertObject : Doc → Doc
  toFormObject : Doc → Doc
  toUpsertObject : Doc → Doc
  toQueryObject : Option (Option Doc → Doc)

/-- `if (updateModel.beforeSave) updateModel.beforeSave(isInsert)`. -/
def applyBeforeSave (S : ModelClass) (isInsert : Bool) (m : Doc) : Doc :=
  match S.beforeSave with
  | some f => f isInsert m
  | none => m

/-- `MongoHelpers.buildSortOptions` (helpers.js lines 37-52).  Returns the
resolved sort together with the options object as it stands afterwards
(`delete opts.order` is embedded as resetting the field to
`undefined`). -/
def buildSortOptions (model : ModelClass) (opts₀ : Option QueryOpts) :
    Option (List (Str × Int)) × QueryOpts :=
  let opts := opts₀.getD emptyOpts
  if orderTruthy opts.order then
    (buildOrder opts.order, { opts with order := OrderInput.jsNull })
  else if orderTruthy opts.sort then
    (buildOrder opts.sort, opts)
  else if orderTruthy model.defaultOrder then
    (buildOrder model.defaultOrder, opts)
  else
    (none, opts)

/-- The options object after `buildFindOptions` has replaced its `sort`
field with the canonical sort map. -/
structure FindOptions where
  sort : Option (List (Str × Int))
  order : OrderInput
  skip : Option Int
  limit : Option Int

/-- `MongoHelpers.buildFindOptions` (helpers.js lines 20-27):
`opts.sort = buildSortOptions(model, opts); return opts`. -/
def buildFindOptions (model : ModelClass) (opts₀ : Option QueryOpts) :
    FindOptions :=
  let r := buildSortOptions model opts₀
  ⟨r.1, r.2.order, r.2.skip, r.2.limit⟩


/-- The commands the adapter sends to the store, captured at the driver
boundary (`collection[funcName](...args)` inside `BaseAdapter.query`, plus
the direct collection calls in `getMany`, `exists` and the proximity
adapter). -/
inductive StoreCmd where
  | insertOne : Doc → StoreCmd
  | updateOne : Val → Val → Option Doc → StoreCmd
  | updateMany : Val → Val → StoreCmd
  | findOne : Val → Option FindOptions → StoreCmd
  | findOneAndUpdate : Val → Val → Option Doc → StoreCmd
  | findLimitOneCount : Val → StoreCmd
  | deleteOne : Val → StoreCmd
  | deleteMany : Val → StoreCmd
  | createIndex : Doc → StoreCmd

/-- Guard failures (`Hoek.assert`) are synchronous errors raised before any
store command is issued; an operation's outcome at the store boundary is
therefore either the guard's message or the command sent. -/
abbrev OpResult := Except String StoreCmd

/-- `true` exactly on a guard failure. -/
def isGuardErr {α : Type} : Except String α → Bool
  | .error _ => true
  | .ok _ => false

/-- The `{upsert: true}` options document. -/
def upsertTrueOpts : Doc := [("upsert", Val.vBool true)]

/-- `BaseAdapter.insertOne` (adapter.js lines 130-150) up to the store
boundary: construct the model, run the insert hook, project the insert
document, guard it non-empty, send `insertOne`. -/
def baseInsertOne (S : ModelClass) (model : Option Doc) : OpResult :=
  let insertModel := applyBeforeSave S true (S.construct model)
  let requestDoc := S.toInsertObject insertModel
  if isEmptyVal (some (.vDoc requestDoc)) then
    .error "Request document must not be empty"
  else
    .ok (.insertOne requestDoc)

/-- The query predicate derived through the schema's query projection when
defined, else through the generic shallow-copy fallback (the
`updateModel.toQueryObject ? updateModel.toQueryObject(params) :
helpers.Model.toSimpleObject(params)` pattern). -/
def resolveProj (S : ModelClass) (params : Option Doc) : Doc :=
  match S.toQueryObject with
  | some f => f params
  | none => toSimpleObject params

/-- The query predicate derived with the identifier bypass (the
`if (form._id) params = {_id: new ObjectID(form._id)}` pattern used by
`getOne`, `exists` and `deleteOne`). -/
def resolveWithIdBypass (S : ModelClass) (form : Doc) : Doc :=
  if fieldTruthy "_id" form then
    [("_id", objectID ((lookupField "_id" form).getD Val.vNull))]
  else
    resolveProj S (some form)

/-- The request document of the model-projected update operations:
`beforeSave(false)` then `toFormObject()`. -/
def formRequestDoc (S : ModelClass) (model : Option Doc) : Doc :=
  S.toFormObject (applyBeforeSave S false (S.construct model))

/-- `BaseAdapter.updateOne` (adapter.js lines 159-186) up to the store
boundary: resolve the predicate by projection (no identifier bypass),
run the update hook, project the form document, guard both non-empty,
send `updateOne` with a `$set` document. -/
def baseUpdateOne (S : ModelClass) (model params : Option Doc) : OpResult :=
  let queryParams := resolveProj S params
  let requestDoc := formRequestDoc S model
  if isEmptyVal (some (.vDoc queryParams)) then
    .error "Query params must not be empty"
  else if isEmptyVal (some (.vDoc requestDoc)) then
    .error "Request document must not be empty"
  else
    .ok (.updateOne (.vDoc queryParams) (.vDoc [("$set", .vDoc requestDoc)]) none)

/-- `BaseAdapter.updateOneSimple` (adapter.js lines 198-213) up to the
store boundary: `Hoek.assert(query, ...)` only rejects a null/undefined
query — a present-but-empty query object passes, and the update document
is never guarded. -/
def baseUpdateOneSimple (form query : Option Doc) : OpResult :=
  let params := toSimpleObject form
  let queryParams := toSimpleObject query
  match query with
  | none => .error "Empty query, cannot update data"
  | some _ =>
    .ok (.updateOne (.vDoc queryParams) (.vDoc [("$set", .vDoc params)]) none)

/-- `BaseAdapter.updateMany` (adapter.js lines 222-247) up to the store
boundary: same derivation as `updateOne`, sending `updateMany`. -/
def baseUpdateMany (S : ModelClass) (model params : Option Doc) : OpResult :=
  let queryParams := resolveProj S params
  let requestDoc := formRequestDoc S model
  if isEmptyVal (some (.vDoc queryParams)) then
    .error "Query parms must not be empty"
  else if isEmptyVal (some (.vDoc requestDoc)) then
    .error "Request document must not be empty"
  else
    .ok (.updateMany (.vDoc queryParams) (.vDoc [("$set", .vDoc requestDoc)]))

/-- `BaseAdapter.updateManySimple` (adapter.js lines 311-330) up to the
store boundary: the guard checks the raw `query` argument with
`isEmpty`, not the resolved `queryParams`, and the update document is
never guarded. -/
def baseUpdateManySimple (form query : Option Doc) : OpResult :=
  let params := toSimpleObject form
  let queryParams := toSimpleObject query
  if isEmptyOptDoc query then
    .error "Query params must not be empty"
  else
    .ok (.updateMany (.vDoc queryParams) (.vDoc [("$set", .vDoc params)]))

/-- The upsert request document: `beforeSave(true)` then
`toUpsertObject()`. -/
def upsertRequestDoc (S : ModelClass) (model : Option Doc) : Doc :=
  S.toUpsertObject (applyBeforeSave S true (S.construct model))

/-- `BaseAdapter.upsertOne` (adapter.js lines 336-361) up to the store
boundary: the match predicate is read back out of the upsert document's
own `$setOnInsert` field, both are guarded non-empty, and `updateOne`
is sent with `{upsert: true}`. -/
def baseUpsertOne (S : ModelClass) (model : Option Doc) : OpResult :=
  let requestDoc := upsertRequestDoc S model
  let queryParams := lookupField "$setOnInsert" requestDoc
  if isEmptyVal queryParams then
    .error "Query params must not be empty"
  else if isEmptyVal (some (.vDoc requestDoc)) then
    .error "Request document must not be empty"
  else
    .ok (.updateOne (queryParams.getD Val.vNull) (.vDoc requestDoc)
          (some upsertTrueOpts))

/-- `BaseAdapter.getOne` (adapter.js lines 370-392) up to the store
boundary: identifier bypass, no guard of any kind, `findOne` with the
options produced by `buildFindOptions`. -/
def baseGetOne (S : ModelClass) (form : Doc) (opts : Option QueryOpts) :
    OpResult :=
  let params := resolveWithIdBypass S form
  .ok (.findOne (.vDoc params) (some (buildFindOptions S opts)))

/-- `getOne`'s result normalization: the store's `findOne` result is
resolved unchanged. -/
def baseGetOneResolve (result : Val) : Val := result

/-- `BaseAdapter.getOneSimple` (adapter.js lines 401-413) up to the store
boundary: shallow-copy resolution and a non-empty guard before the
`findOne`. -/
def baseGetOneSimple (form : Option Doc) : OpResult :=
  let params := toSimpleObject form
  if isEmptyVal (some (.vDoc params)) then
    .error "Params must not be empty"
  else
    .ok (.findOne (.vDoc params) none)

/-- The store's find-and-modify result envelope (`{ok, value}`). -/
structure Envelope where
  ok : Bool
  value : Val

/-- `BaseAdapter.getOneAndUpdate` (adapter.js lines 496-523) up to the
store boundary: projection-resolved predicate (no identifier bypass),
guards, `findOneAndUpdate` with a `$set` document. -/
def baseGetOneAndUpdate (S : ModelClass) (form query : Option Doc)
    (opts : Option Doc) : OpResult :=
  let queryParams := resolveProj S query
  let requestDoc := formRequestDoc S form
  if isEmptyVal (some (.vDoc queryParams)) then
    .error "Query params must not be empty"
  else if isEmptyVal (some (.vDoc requestDoc)) then
    .error "Request document must not be empty"
  else
    .ok (.findOneAndUpdate (.vDoc queryParams)
          (.vDoc [("$set", .vDoc requestDoc)]) opts)

/-- `getOneAndUpdate`'s result normalization (adapter.js lines 515-520):
`if (!result.ok) resolve(null); resolve(result.value)`. -/
def baseGetOneAndUpdateResolve (result : Envelope) : Val :=
  if !result.ok then Val.vNull else result.value

/-- The request document of `getOneAndUpsert`: the source calls
`beforeSave(false)` (an update-flagged hook, adapter.js line 542) and
then the upsert projection. -/
def upsertFormRequestDoc (S : ModelClass) (model : Option Doc) : Doc :=
  S.toUpsertObject (applyBeforeSave S false (S.construct model))

/-- `BaseAdapter.getOneAndUpsert` (adapter.js lines 534-560) up to the
store boundary: like `getOneAndUpdate` but with the upsert projection
(after the update-flagged `beforeSave(false)` hook) and
`opts.upsert = true`. -/
def baseGetOneAndUpsert (S : ModelClass) (form query : Option Doc)
    (opts : Doc) : OpResult :=
  let queryParams := resolveProj S query
  let requestDoc := upsertFormRequestDoc S form
  let opts₁ := setField "upsert" (Val.vBool true) opts
  if isEmptyVal (some (.vDoc queryParams)) then
    .error "Query params must not be empty"
  else if isEmptyVal (some (.vDoc requestDoc)) then
    .error "Request document must not be empty"
  else
    .ok (.findOneAndUpdate (.vDoc queryParams) (.vDoc requestDoc) (some opts₁))

/-- `getOneAndUpsert`'s result normalization (adapter.js lines 552-557),
identical in shape to `getOneAndUpdate`'s. -/
def baseGetOneAndUpsertResolve (result : Envelope) : Val :=
  if !result.ok then Val.vNull else result.value

/-- `BaseAdapter.exists` (adapter.js lines 569-608) up to the store
boundary: identifier bypass, non-empty guard, then
`find(params).limit(1).count()`. -/
def baseExists (S : ModelClass) (form : Doc) : OpResult :=
  let params := resolveWithIdBypass S form
  if isEmptyVal (some (.vDoc params)) then
    .error "Params must not be empty"
  else
    .ok (.findLimitOneCount (.vDoc params))

/-- `exists`'s result normalization: `count > 0`. -/
def baseExistsResolve (count : Nat) : Bool := count > 0

/-- `BaseAdapter.deleteOne` (adapter.js lines 617-639) up to the store
boundary: identifier bypass, non-empty guard, `deleteOne`. -/
def baseDeleteOne (S : ModelClass) (form : Doc) : OpResult :=
  let params := resolveWithIdBypass S form
  if isEmptyVal (some (.vDoc params)) then
    .error "Params must not be empty"
  else
    .ok (.deleteOne (.vDoc params))

/-- `BaseAdapter.deleteOneSimple` (adapter.js lines 648-660) up to the
store boundary. -/
def baseDeleteOneSimple (form : Option Doc) : OpResult :=
  let params := toSimpleObject form
  if isEmptyVal (some (.vDoc params)) then
    .error "Params must not be empty"
  else
    .ok (.deleteOne (.vDoc params))

/-- `BaseAdapter.deleteMany` (adapter.js lines 669-689) up to the store
boundary: projection resolution (no identifier bypass), non-empty
guard, `deleteMany`. -/
def baseDeleteMany (S : ModelClass) (form : Option Doc) : OpResult :=
  let params := resolveProj S form
  if isEmptyVal (some (.vDoc params)) then
    .error "Params must not be empty"
  else
    .ok (.deleteMany (.vDoc params))

/-- `BaseAdapter.deleteManySimple` (adapter.js lines 698-710) up to the
store boundary. -/
def baseDeleteManySimple (form : Option Doc) : OpResult :=
  let params := toSimpleObject form
  if isEmptyVal (some (.vDoc params)) then
    .error "Params must not be empty"
  else
    .ok (.deleteMany (.vDoc params))

/-- The store's `updateOne` result (`modifiedCount`, `upsertedCount`,
`upsertedId`). -/
structure UpdateResult where
  modifiedCount : Int
  upsertedCount : Int
  upsertedId : Val

/-- One observed run of the `UserActivityAdapter.upsertOne` override: the
store commands issued, the value/rejection of the promise the caller
receives, and the log lines emitted. -/
structure UARun where
  cmds : List StoreCmd
  resolved : Except String Doc
  logs : List String

/-- `UserActivityAdapter.upsertOne` (user-activity.js lines 41-81).  The
activity-log insert and the index creation are fire-and-forget: their
promises are never returned into the chain, so their outcomes
(`logOutcome`, `indexOutcome`) only select which success log lines
appear, while the caller's promise follows `upsertOutcome` alone.  No
guard assertion exists on this path: the commands are issued whatever
the documents contain. -/
def uaUpsertOne (S logS : ModelClass) (model : Option Doc)
    (logOutcome : Except String Val) (indexOutcome : Except String String)
    (upsertOutcome : Except String UpdateResult) : UARun :=
  let logModel := applyBeforeSave logS true (logS.construct model)
  let insertModel := applyBeforeSave S true (S.construct model)
  let requestLogDoc := logS.toInsertObject logModel
  let requestDoc := S.toUpsertObject insertModel
  let queryParams := (lookupField "$setOnInsert" requestDoc).getD Val.vNull
  let logLogs := match logOutcome with
    | .ok _ => ["Insert log model successfully"]
    | .error _ => []
  match upsertOutcome with
  | .error e =>
    ⟨[.insertOne requestLogDoc,
      .updateOne queryParams (.vDoc requestDoc) (some upsertTrueOpts)],
     .error e, logLogs⟩
  | .ok r =>
    let idxLogs := match indexOutcome with
      | .ok _ => ["Create index successfully"]
      | .error _ => []
    ⟨[.insertOne requestLogDoc,
      .updateOne queryParams (.vDoc requestDoc) (some upsertTrueOpts),
      .createIndex [("location", Val.vStr "2dsphere")]],
     .ok (setField "_id" r.upsertedId insertModel),
     logLogs ++ idxLogs ++ ["Upsert model successfully"]⟩

/-- A geometry point, embedded with integer coordinates; the spherical
distance computation is the store's and is passed to the aggregation
semantics as an explicit function. -/
structure GeoPoint where
  lng : Int
  lat : Int
deriving DecidableEq

/-- `geoTypes.GeoQuery`: a geometry point plus optional min/max distance
bounds. -/
structure GeoQuery where
  geometry : GeoPoint
  maxDistance : Option Nat
  minDistance : Option Nat

/-- `actParams`: the optional activity equality constraint; `none` embeds
`null`. -/
structure ActQuery where
  activity : Option Int

/-- A stored location-sample document as the pipeline sees it: the value
of the configured primary key (the group/deduplication key), the
activity field the geo stage pre-filters on, the indexed location, and
the `status` field the sort stage uses. -/
structure ADoc where
  key : String
  activity : Int
  loc : GeoPoint
  status : Int
deriving DecidableEq

/-- The `$geoNear` stage as built by `findAroundQuery`: `near`, the
`maxDistance || undefined` / `minDistance || undefined` bounds (a zero
bound is falsy in JavaScript and becomes `undefined`), and the
pre-filter `query` derived from the activity constraint. -/
structure GeoNearStage where
  near : GeoPoint
  maxD : Option Nat
  minD : Option Nat
  queryActivity : Option Int

/-- The `$sort` stage as built by `findAroundQuery`: the directions for
`distance` and `status` (both `-1` in the source). -/
structure SortStage where
  distanceDir : Int
  statusDir : Int

/-- The three-stage pipeline `findAroundQuery` emits: geo-filter, sort,
dedup-group (the group stage keys on the configured primary key and
keeps `{$first: '$$ROOT'}`). -/
structure Pipeline where
  geo : GeoNearStage
  sortStage : SortStage

/-- `x || undefined` on an optional numeric bound. -/
def orUndefined : Option Nat → Option Nat
  | some 0 => none
  | x => x

/-- `UserActivityAdapter.findAroundQuery` (user-activity.js lines 91-122):
builds the three-stage aggregation pipeline.  `query.activity` is set
only when the activity constraint is not null; the sort directions are
`distance: -1, status: -1`. -/
def findAroundQuery (geoParams : GeoQuery) (actParams : ActQuery) : Pipeline :=
  ⟨⟨geoParams.geometry, orUndefined geoParams.maxDistance,
    orUndefined geoParams.minDistance, actParams.activity⟩,
   ⟨-1, -1⟩⟩

/-- Stable insertion of `x` after every element not strictly after it
(`lt a b` reads "`a` comes strictly before `b`"). -/
def insertOrd {α : Type} (lt : α → α → Bool) (x : α) : List α → List α
  | [] => [x]
  | y :: ys => if lt x y then x :: y :: ys else y :: insertOrd lt x ys

/-- Stable sort by repeated ordered insertion: elements that compare
equal keep their encounter order.  Used as the store's deterministic
sort semantics for both the `$geoNear` stage's nearest-first order and
the `$sort` stage (whose order `$first` in the group stage then
sees). -/
def sortStable {α : Type} (lt : α → α → Bool) (xs : List α) : List α :=
  xs.foldl (fun acc x => insertOrd lt x acc) []

/-- The `$geoNear` stage's store semantics over a candidate set: keep the
documents matching the pre-filter and the distance bounds, attach the
computed `distance` field, and emit nearest first. -/
def geoNearSem (dist : GeoPoint → GeoPoint → Nat) (g : GeoNearStage)
    (docs : List ADoc) : List (ADoc × Nat) :=
  let kept := docs.filter (fun d =>
    (match g.queryActivity with
     | some a => d.activity = a
     | none => true) &&
    (match g.minD with
     | some m => m ≤ dist g.near d.loc
     | none => true) &&
    (match g.maxD with
     | some m => dist g.near d.loc ≤ m
     | none => true))
  let withDist := kept.map (fun d => (d, dist g.near d.loc))
  sortStable (fun a b => a.2 < b.2) withDist

/-- `true` when, under the `$sort` stage's directions, `a` must come
strictly before `b`. -/
def sortBefore (s : SortStage) (a b : ADoc × Nat) : Bool :=
  if a.2 ≠ b.2 then
    (if s.distanceDir < 0 then b.2 < a.2 else a.2 < b.2)
  else if a.1.status ≠ b.1.status then
    (if s.statusDir < 0 then b.1.status < a.1.status else a.1.status < b.1.status)
  else false

/-- The `$group` stage's store semantics for `{_id: '$key', activity:
{$first: '$$ROOT'}}`, with an accumulator of the keys already grouped:
one output per distinct key not yet in `seen`, carrying the first
document encountered for that key. -/
def dedupByKeyAux {α : Type} (keyf : α → String) (seen : List String) :
    List α → List α
  | [] => []
  | x :: xs =>
    if keyf x ∈ seen then dedupByKeyAux keyf seen xs
    else x :: dedupByKeyAux keyf (keyf x :: seen) xs

/-- The `$group` stage's store semantics: one output per distinct key,
carrying the first document encountered for that key. -/
def dedupByKey {α : Type} (keyf : α → String) (l : List α) : List α :=
  dedupByKeyAux keyf [] l

/-- The candidate list as it stands after the pipeline's sort stage (the
order `$first` picks from). -/
def sortedCandidates (dist : GeoPoint → GeoPoint → Nat) (p : Pipeline)
    (docs : List ADoc) : List (ADoc × Nat) :=
  sortStable (sortBefore p.sortStage) (geoNearSem dist p.geo docs)

/-- Store semantics of `collection.aggregate(queryData)` for the pipelines
`findAroundQuery` emits. -/
def aggregateSem (dist : GeoPoint → GeoPoint → Nat) (p : Pipeline)
    (docs : List ADoc) : List (ADoc × Nat) :=
  dedupByKey (fun x => x.1.key) (sortedCandidates dist p docs)

/-- `UserActivityAdapter.findManyAround` (user-activity.js lines 131-155)
under the store semantics: run the pipeline and collect each group's
`activity` (the kept first document). -/
def findManyAroundSem (dist : GeoPoint → GeoPoint → Nat)
    (geoParams : GeoQuery) (actParams : ActQuery) (docs : List ADoc) :
    List (ADoc × Nat) :=
  aggregateSem dist (findAroundQuery geoParams actParams) docs

/-- `UserActivityAdapter.findOneAround` (user-activity.js lines 164-186)
under the store semantics: the same pipeline with a cursor
`limit(1)`; `results[0].activity` when non-empty, else `null`. -/
def findOneAroundSem (dist : GeoPoint → GeoPoint → Nat)
    (geoParams : GeoQuery) (actParams : ActQuery) (docs : List ADoc) :
    Option (ADoc × Nat) :=
  let results :=
    (aggregateSem dist (findAroundQuery geoParams actParams) docs).take 1
  if results.length > 0 then results.head? else none

/-- A concrete schema exercising the generic fallback: no query
projection, identity projections, no hook. -/
def fallbackSchema : ModelClass :=
  ⟨"things", OrderInput.jsNull, (fun od => od.getD []), none, id, id, id, none⟩

/-- A concrete schema whose query projection ignores its input and always
produces the predicate `{name: "n"}`. -/
def projSchema : ModelClass :=
  ⟨"things", OrderInput.jsNull, (fun od => od.getD []), none, id, id, id,
   some (fun _ => [("name", Val.vStr "n")])⟩

/-- A concrete schema whose upsert projection embeds an on-insert
sub-document. -/
def upsertSchema : ModelClass :=
  ⟨"things", OrderInput.jsNull, (fun od => od.getD []), none, id, id,
   (fun m => [("$setOnInsert", Val.vDoc [("k", Val.vInt 1)]),
              ("$set", Val.vDoc m)]),
   none⟩

/-- A concrete distance function for exercising the proximity pipeline:
squared Euclidean distance. -/
def sqDist (a b : GeoPoint) : Nat :=
  ((a.lng - b.lng) * (a.lng - b.lng) + (a.lat - b.lat) * (a.lat - b.lat)).toNat

/-- A concrete proximity query centred at the origin with a wide radius. -/
def geoEx : GeoQuery := ⟨⟨0, 0⟩, some 100, none⟩

/-- A concrete activity filter selecting activity `1`. -/
def actEx : ActQuery := ⟨some 1⟩

/-- Concrete location samples: two samples for key `u1` (both activity 1,
in radius) and one for key `u2`. -/
def docsEx : List ADoc :=
  [⟨"u1", 1, ⟨3, 4⟩, 5⟩, ⟨"u2", 1, ⟨1, 1⟩, 2⟩, ⟨"u1", 1, ⟨0, 2⟩, 9⟩]

theorem mem_of_mem_insertOrd {α : Type} (lt : α → α → Bool) (x y : α) :
    ∀ l : List α, y ∈ insertOrd lt x l → y = x ∨ y ∈ l := by
  intro l
  induction l with
  | nil => intro h; simp [insertOrd] at h; exact Or.inl h
  | cons z zs ih =>
    intro h
    simp only [insertOrd] at h
    by_cases hc : lt x z
    · simp [hc] at h
      rcases h with h | h | h
      · exact Or.inl h
      · exact Or.inr (by simp [h])
      · exact Or.inr (by simp [h])
    · simp [hc] at h
      rcases h with h | h
      · exact Or.inr (by simp [h])
      · rcases ih h with h₁ | h₁
        · exact Or.inl h₁
        · exact Or.inr (by simp [h₁])

theorem dedupByKeyAux_countP_zero {α : Type} (f : α → String) (k : String) :
    ∀ (l : List α) (seen : List String), k ∈ seen →
      (dedupByKeyAux f seen l).countP (fun y => f y == k) = 0 := by
  intro l
  induction l with
  | nil => intro seen _; rfl
  | cons x xs ih =>
    intro seen hk
    simp only [dedupByKeyAux]
    by_cases hx : f x ∈ seen
    · simp only [hx, if_true]
      exact ih seen hk
    · simp only [hx, if_false, List.countP_cons]
      have hne : (f x == k) = false := by
        rcases eq_or_ne (f x) k with h | h
        · exact absurd (h ▸ hk) hx
        · simp [h]
      simp only [hne, if_false, Nat.add_zero]
      exact ih (f x :: seen) (by simp [hk])

theorem dedupByKeyAux_countP {α : Type} (f : α → String) (k : String) :
    ∀ (l : List α) (seen : List String), k ∉ seen →
      (dedupByKeyAux f seen l).countP (fun y => f y == k)
        = min (l.countP (fun y => f y == k)) 1 := by
  intro l
  induction l with
  | nil => intro seen _; rfl
  | cons x xs ih =>
    intro seen hk
    simp only [dedupByKeyAux, List.countP_cons]
    by_cases hx : f x ∈ seen
    · have hne : (f x == k) = false := by
        rcases eq_or_ne (f x) k with h | h
        · exact absurd (h ▸ hx) hk
        · simp [h]
      simp only [hx, if_true, hne, if_false, Nat.add_zero]
      exact ih seen hk
    · by_cases hfx : f x = k
      · have heq : (f x == k) = true := by simp [hfx]
        simp only [hx, if_false, List.countP_cons, heq, if_true]
        have hz : (dedupByKeyAux f (f x :: seen) xs).countP
            (fun y => f y == k) = 0 :=
          dedupByKeyAux_countP_zero f k xs (f x :: seen) (by simp [hfx])
        simp [hz]
      · have hne : (f x == k) = false := by simp [hfx]
        simp only [hx, if_false, List.countP_cons, hne, Nat.add_zero]
        refine ih (f x :: seen) ?_
        simp only [List.mem_cons, not_or]
        exact ⟨fun h => hfx h.symm, hk⟩

theorem dedupByKeyAux_find? {α : Type} (f : α → String) (k : String) :
    ∀ (l : List α) (seen : List String), k ∉ seen →
      (dedupByKeyAux f seen l).find? (fun y => f y == k)
        = l.find? (fun y => f y == k) := by
  intro l
  induction l with
  | nil => intro seen _; rfl
  | cons x xs ih =>
    intro seen hk
    simp only [dedupByKeyAux]
    by_cases hx : f x ∈ seen
    · have hne : (f x == k) = false := by
        rcases eq_or_ne (f x) k with h | h
        · exact absurd (h ▸ hx) hk
        · simp [h]
      simp only [hx, if_true, List.find?_cons, hne]
      exact ih seen hk
    · by_cases hfx : f x = k
      · have heq : (f x == k) = true := by simp [hfx]
        simp [hx, List.find?_cons, heq]
      · have hne : (f x == k) = false := by simp [hfx]
        simp only [hx, if_false, List.find?_cons, hne]
        refine ih (f x :: seen) ?_
        simp only [List.mem_cons, not_or]
        exact ⟨fun h => hfx h.symm, hk⟩

theorem dedupByKey_countP {α : Type} (f : α → String) (k : String)
    (l : List α) :
    (dedupByKey f l).countP (fun y => f y == k)
      = min (l.countP (fun y => f y == k)) 1 :=
  dedupByKeyAux_countP f k l [] (by simp)

theorem dedupByKey_find? {α : Type} (f : α → String) (k : String)
    (l : List α) :
    (dedupByKey f l).find? (fun y => f y == k)
      = l.find? (fun y => f y == k) :=
  dedupByKeyAux_find? f k l [] (by simp)

theorem jsSplit_ne_nil (sep : Char) : ∀ s : Str, jsSplit sep s ≠ [] := by
  intro s
  induction s with
  | nil => simp [jsSplit]
  | cons c cs ih =>
    simp only [jsSplit]
    cases h : jsSplit sep cs with
    | nil => exact absurd h ih
    | cons t ts =>
      by_cases hc : c = sep <;> simp [hc]

theorem jsSplit_no_sep (sep : Char) :
    ∀ t : Str, sep ∉ t → jsSplit sep t = [t] := by
  intro t
  induction t with
  | nil => intro _; rfl
  | cons c cs ih =>
    intro h
    have hc : c ≠ sep := fun hceq => h (by simp [hceq])
    have hcs : sep ∉ cs := fun hmem => h (by simp [hmem])
    simp only [jsSplit, ih hcs]
    simp [hc]

theorem jsSplit_append (sep : Char) :
    ∀ (t r : Str), sep ∉ t →
      jsSplit sep (t ++ sep :: r) = t :: jsSplit sep r := by
  intro t
  induction t with
  | nil =>
    intro r _
    simp only [List.nil_append, jsSplit]
    cases h : jsSplit sep r with
    | nil => exact absurd h (jsSplit_ne_nil sep r)
    | cons u us => simp
  | cons c cs ih =>
    intro r h
    have hc : c ≠ sep := fun hceq => h (by simp [hceq])
    have hcs : sep ∉ cs := fun hmem => h (by simp [hmem])
    simp only [List.cons_append, jsSplit, List.append_eq]
    rw [ih r hcs]
    simp [hc]

theorem jsSplit_jsJoin (sep : Char) :
    ∀ ts : List Str, ts ≠ [] → (∀ t ∈ ts, sep ∉ t) →
      jsSplit sep (jsJoin sep ts) = ts := by
  intro ts
  induction ts with
  | nil => intro h _; exact absurd rfl h
  | cons t rest ih =>
    intro _ hall
    cases rest with
    | nil =>
      simp only [jsJoin]
      exact jsSplit_no_sep sep t (hall t (by simp))
    | cons u us =>
      have hjoin : jsJoin sep (t :: u :: us) = t ++ sep :: jsJoin sep (u :: us) := rfl
      rw [hjoin, jsSplit_append sep t _ (hall t (by simp))]
      rw [ih (by simp) (fun x hx => hall x (by simp [hx]))]

theorem jsJoin_ne_nil (sep : Char) :
    ∀ ts : List Str, ts ≠ [] → ts ≠ [[]] → jsJoin sep ts ≠ [] := by
  intro ts
  cases ts with
  | nil => intro h _; exact absurd rfl h
  | cons t rest =>
    intro _ hne
    cases rest with
    | nil =>
      have : t ≠ [] := fun h => hne (by simp [h])
      simpa [jsJoin] using this
    | cons u us =>
      cases t with
      | nil => simp [jsJoin]
      | cons c cs => simp [jsJoin]

/-- C5 counterexample: the claim's array/string equivalence fails at the
empty sequence of tokens — `buildOrder([])` is the empty map (an empty
array is truthy in JavaScript), while the comma-joined string is `''`,
which is falsy and yields `null`. -/
theorem C5_counterexample :
    buildOrder (OrderInput.arr []) = some [] ∧
    buildOrder (OrderInput.str (jsJoin ',' [])) = none :=
  ⟨rfl, rfl⟩

/-- C5 (amended): `buildOrder` maps null/absent input to null and returns
a map input verbatim; for every non-empty sequence of comma-free field
tokens other than the single empty token, it yields the same
field-to-direction map as the single comma-joined string of those
tokens, each token being trimmed, a leading `-` stripped giving
direction `-1`, else direction `+1`; in particular
`buildOrder(["name", "-age"]) = buildOrder("name,-age")
= {name: +1, age: -1}`. -/
theorem C5_buildOrder_amended :
    buildOrder OrderInput.jsNull = none ∧
    (∀ m, buildOrder (OrderInput.map m) = some m) ∧
    (∀ ts : List Str, ts ≠ [] → ts ≠ [[]] → (∀ t ∈ ts, ',' ∉ t) →
      buildOrder (OrderInput.arr ts)
        = buildOrder (OrderInput.str (jsJoin ',' ts))) ∧
    buildOrder (OrderInput.arr ["name".toList, "-age".toList])
      = some [("name".toList, 1), ("age".toList, -1)] ∧
    buildOrder (OrderInput.str "name,-age".toList)
      = some [("name".toList, 1), ("age".toList, -1)] := by
  refine ⟨rfl, fun m => rfl, ?_, by decide, by decide⟩
  intro ts h₁ h₂ h₃
  simp only [buildOrder]
  rw [if_neg (jsJoin_ne_nil ',' ts h₁ h₂), jsSplit_jsJoin ',' ts h₁ h₃]

/-- C5 witness: the general array/string equivalence applied at the
concrete token sequence `["name", "-age"]`. -/
theorem C5_witness :
    buildOrder (OrderInput.arr ["name".toList, "-age".toList])
      = buildOrder (OrderInput.str (jsJoin ',' ["name".toList, "-age".toList])) :=
  C5_buildOrder_amended.2.2.1 ["name".toList, "-age".toList]
    (by decide) (by decide) (by decide)

/-- C6: `buildSortOptions` resolves the effective sort with the precedence
explicit `order` option, then explicit `sort` option, then the schema's
default sort, else `null`; when the `order` option is used it is
consumed (deleted) from the options object while the `sort` field (and
the untouched schema) are left in place; in the other branches the
options object is returned unchanged. -/
theorem C6_buildSortOptions_precedence
    (model : ModelClass) (opts₀ : Option QueryOpts) :
    (orderTruthy (opts₀.getD emptyOpts).order = true →
      (buildSortOptions model opts₀).1 = buildOrder (opts₀.getD emptyOpts).order
      ∧ (buildSortOptions model opts₀).2
          = { opts₀.getD emptyOpts with order := OrderInput.jsNull }
      ∧ (buildSortOptions model opts₀).2.sort = (opts₀.getD emptyOpts).sort) ∧
    (orderTruthy (opts₀.getD emptyOpts).order = false →
     orderTruthy (opts₀.getD emptyOpts).sort = true →
      (buildSortOptions model opts₀).1 = buildOrder (opts₀.getD emptyOpts).sort
      ∧ (buildSortOptions model opts₀).2 = opts₀.getD emptyOpts) ∧
    (orderTruthy (opts₀.getD emptyOpts).order = false →
     orderTruthy (opts₀.getD emptyOpts).sort = false →
     orderTruthy model.defaultOrder = true →
      (buildSortOptions model opts₀).1 = buildOrder model.defaultOrder
      ∧ (buildSortOptions model opts₀).2 = opts₀.getD emptyOpts) ∧
    (orderTruthy (opts₀.getD emptyOpts).order = false →
     orderTruthy (opts₀.getD emptyOpts).sort = false →
     orderTruthy model.defaultOrder = false →
      (buildSortOptions model opts₀).1 = none
      ∧ (buildSortOptions model opts₀).2 = opts₀.getD emptyOpts) := by
  refine ⟨?_, ?_, ?_, ?_⟩
  · intro h₁
    simp [buildSortOptions, h₁]
  · intro h₁ h₂
    simp [buildSortOptions, h₁, h₂]
  · intro h₁ h₂ h₃
    simp [buildSortOptions, h₁, h₂, h₃]
  · intro h₁ h₂ h₃
    simp [buildSortOptions, h₁, h₂, h₃]

/-- C6 witness: a concrete options object carrying both an `order` and a
`sort` specification; the `order` wins and is consumed, the `sort`
field survives. -/
theorem C6_witness :
    (buildSortOptions fallbackSchema
        (some ⟨OrderInput.str "a".toList, OrderInput.str "b".toList,
               none, none⟩)).1
      = buildOrder (OrderInput.str "a".toList)
    ∧ (buildSortOptions fallbackSchema
        (some ⟨OrderInput.str "a".toList, OrderInput.str "b".toList,
               none, none⟩)).2
      = { (⟨OrderInput.str "a".toList, OrderInput.str "b".toList,
           none, none⟩ : QueryOpts) with order := OrderInput.jsNull }
    ∧ (buildSortOptions fallbackSchema
        (some ⟨OrderInput.str "a".toList, OrderInput.str "b".toList,
               none, none⟩)).2.sort
      = OrderInput.str "b".toList :=
  C6_buildSortOptions_precedence fallbackSchema
    (some ⟨OrderInput.str "a".toList, OrderInput.str "b".toList, none, none⟩)
    |>.1 (by decide)

/-- C4 counterexample: the claim's "null exactly when ok is false" fails —
an envelope with `ok` true and a null `value` (the store's shape for a
successful find-and-modify that matched no document) also resolves to
null, although `ok` is not false. -/
theorem C4_counterexample :
    baseGetOneAndUpdateResolve ⟨true, Val.vNull⟩ = Val.vNull
    ∧ (Envelope.mk true Val.vNull).ok ≠ false :=
  ⟨rfl, by decide⟩

/-- C4 (amended): for every store envelope, `getOneAndUpdate` and
`getOneAndUpsert` resolve to null whenever the envelope's `ok` field is
false, and otherwise resolve to the envelope's `value` field — which
may itself be null, so a null result does not imply that `ok` was
false. -/
theorem C4_envelope_normalization_amended (env : Envelope) :
    baseGetOneAndUpdateResolve env = (if env.ok then env.value else Val.vNull)
    ∧ baseGetOneAndUpsertResolve env
        = (if env.ok then env.value else Val.vNull) := by
  cases h : env.ok <;>
    simp [baseGetOneAndUpdateResolve, baseGetOneAndUpsertResolve, h]

/-- C3: for every schema and input model, whenever `upsertOne` reaches the
store, the command is an upsert `updateOne` whose match predicate is
exactly the value embedded under the upsert document's own
`$setOnInsert` field — the insert-vs-update condition is read back out
of the very payload being written. -/
theorem C3_upsert_predicate_from_setOnInsert
    (S : ModelClass) (model : Option Doc) (cmd : StoreCmd)
    (h : baseUpsertOne S model = .ok cmd) :
    ∃ q d, cmd = .updateOne q (.vDoc d) (some upsertTrueOpts)
      ∧ lookupField "$setOnInsert" d = some q := by
  simp only [baseUpsertOne] at h
  rcases hq : lookupField "$setOnInsert" (upsertRequestDoc S model) with _ | v
  · rw [hq] at h
    simp [isEmptyVal] at h
  · rw [hq] at h
    by_cases h₁ : isEmptyVal (some v) = true
    · simp [h₁] at h
    · rw [if_neg h₁] at h
      by_cases h₂ :
          isEmptyVal (some (Val.vDoc (upsertRequestDoc S model))) = true
      · simp [h₂] at h
      · rw [if_neg h₂] at h
        refine ⟨v, upsertRequestDoc S model, ?_, hq⟩
        cases h
        rfl

/-- C3 witness: the theorem applied to a concrete schema whose upsert
projection embeds `{$setOnInsert: {k: 1}}`. -/
theorem C3_witness :
    ∃ q d, StoreCmd.updateOne (Val.vDoc [("k", Val.vInt 1)])
        (Val.vDoc [("$setOnInsert", Val.vDoc [("k", Val.vInt 1)]),
                   ("$set", Val.vDoc [])])
        (some upsertTrueOpts)
      = StoreCmd.updateOne q (.vDoc d) (some upsertTrueOpts)
      ∧ lookupField "$setOnInsert" d = some q :=
  C3_upsert_predicate_from_setOnInsert upsertSchema (some []) _ rfl

/-- C9: the value the `UserActivityAdapter.upsertOne` override resolves to
is independent of the outcomes of its two fire-and-forget side effects
(the activity-log insert and the geospatial index creation): two runs
differing only in those outcomes resolve identically, and the caller's
promise is rejected exactly when the primary upsert itself is — a
side-effect failure alone never rejects it (only the emitted log lines
can differ). -/
theorem C9_sideeffect_independence
    (S logS : ModelClass) (model : Option Doc)
    (logA logB : Except String Val) (idxA idxB : Except String String)
    (up : Except String UpdateResult) :
    (uaUpsertOne S logS model logA idxA up).resolved
      = (uaUpsertOne S logS model logB idxB up).resolved
    ∧ ((uaUpsertOne S logS model logA idxA up).resolved.isOk = up.isOk) := by
  cases up <;> exact ⟨rfl, rfl⟩

/-- C7: under the store's aggregation semantics, the pipeline built by
`findAroundQuery` yields at most one result per distinct primary-key
value, and whenever two or more location samples with the same key
survive the geo stage, `findManyAround` returns exactly one result for
that key — the first document with that key after the pipeline's sort
stage — never two. -/
theorem C7_proximity_dedup (dist : GeoPoint → GeoPoint → Nat)
    (geo : GeoQuery) (act : ActQuery) (docs : List ADoc) (k : String) :
    (findManyAroundSem dist geo act docs).countP (fun p => p.1.key == k) ≤ 1
    ∧ (2 ≤ (sortedCandidates dist (findAroundQuery geo act) docs).countP
          (fun p => p.1.key == k) →
        (findManyAroundSem dist geo act docs).countP
            (fun p => p.1.key == k) = 1
        ∧ (findManyAroundSem dist geo act docs).find? (fun p => p.1.key == k)
          = (sortedCandidates dist (findAroundQuery geo act) docs).find?
              (fun p => p.1.key == k)) := by
  have hmany : findManyAroundSem dist geo act docs
      = dedupByKey (fun x : ADoc × Nat => x.1.key)
          (sortedCandidates dist (findAroundQuery geo act) docs) := rfl
  constructor
  · rw [hmany, dedupByKey_countP]
    exact min_le_right _ _
  · intro h₂
    constructor
    · rw [hmany, dedupByKey_countP]
      exact min_eq_right (le_trans one_le_two h₂)
    · rw [hmany, dedupByKey_find?]

/-- C7 witness: two in-radius samples for the key `u1`; after the pipeline
exactly one result carries that key, and it is the first `u1` document
of the sorted stage. -/
theorem C7_witness :
    2 ≤ (sortedCandidates sqDist (findAroundQuery geoEx actEx) docsEx).countP
          (fun p => p.1.key == "u1")
    ∧ ((findManyAroundSem sqDist geoEx actEx docsEx).countP
          (fun p => p.1.key == "u1") = 1
       ∧ (findManyAroundSem sqDist geoEx actEx docsEx).find?
            (fun p => p.1.key == "u1")
         = (sortedCandidates sqDist (findAroundQuery geoEx actEx) docsEx).find?
            (fun p => p.1.key == "u1")) :=
  ⟨by decide, (C7_proximity_dedup sqDist geoEx actEx docsEx "u1").2 (by decide)⟩

/-- C8: `findOneAround` agrees with the head of `findManyAround` on the
same arguments: it is `null` exactly on an empty deduplicated candidate
set, and otherwise the element `findManyAround` ranks first. -/
theorem C8_findOneAround_head (dist : GeoPoint → GeoPoint → Nat)
    (geo : GeoQuery) (act : ActQuery) (docs : List ADoc) :
    findOneAroundSem dist geo act docs
      = (findManyAroundSem dist geo act docs).head?
    ∧ (findOneAroundSem dist geo act docs = none
        ↔ findManyAroundSem dist geo act docs = []) := by
  have h : findOneAroundSem dist geo act docs
      = (aggregateSem dist (findAroundQuery geo act) docs).head? := by
    simp only [findOneAroundSem]
    cases aggregateSem dist (findAroundQuery geo act) docs <;> simp
  refine ⟨h, ?_⟩
  rw [h]
  unfold findManyAroundSem
  cases aggregateSem dist (findAroundQuery geo act) docs <;> simp

/-- C2 counterexample: `updateOne` applies no identifier bypass — with a
schema that defines a query projection and an input carrying `_id`, the
predicate sent to the store is the projection's output, not the
equality predicate on the parsed identifier. -/
theorem C2_counterexample :
    baseUpdateOne projSchema (some [("x", Val.vInt 1)])
        (some [("_id", Val.vStr "abc")])
      = .ok (.updateOne (.vDoc [("name", Val.vStr "n")])
             (.vDoc [("$set", Val.vDoc [("x", Val.vInt 1)])]) none)
    ∧ Val.vDoc [("name", Val.vStr "n")]
        ≠ Val.vDoc [("_id", objectID (Val.vStr "abc"))] :=
  ⟨rfl, by simp [objectID]⟩

/-- C2 (amended): only `getOne`, `exists` and `deleteOne` apply the
identifier bypass — an input with a truthy `_id` makes their predicate
the equality predicate on the parsed identifier, whatever query
projection the schema defines; `updateOne`, `updateMany`,
`getOneAndUpdate` and `getOneAndUpsert` always resolve through the
schema's query projection when defined (else the generic shallow-copy
fallback), even when the input carries `_id`. -/
theorem C2_identity_resolution_amended :
    (∀ (S : ModelClass) (form : Doc) (v : Val) (opts : Option QueryOpts),
      lookupField "_id" form = some v → jsTruthy v = true →
      resolveWithIdBypass S form = [("_id", objectID v)]
      ∧ baseGetOne S form opts
          = .ok (.findOne (.vDoc [("_id", objectID v)])
                 (some (buildFindOptions S opts)))
      ∧ baseExists S form
          = .ok (.findLimitOneCount (.vDoc [("_id", objectID v)]))
      ∧ baseDeleteOne S form
          = .ok (.deleteOne (.vDoc [("_id", objectID v)]))) ∧
    (∀ (S : ModelClass) (p : Option Doc) (f : Option Doc → Doc),
      S.toQueryObject = some f → resolveProj S p = f p) ∧
    (∀ (S : ModelClass) (p : Option Doc),
      S.toQueryObject = none → resolveProj S p = toSimpleObject p) ∧
    (∀ (S : ModelClass) (m p : Option Doc),
      isEmptyVal (some (.vDoc (resolveProj S p))) = false →
      isEmptyVal (some (.vDoc (formRequestDoc S m))) = false →
      baseUpdateOne S m p
        = .ok (.updateOne (.vDoc (resolveProj S p))
               (.vDoc [("$set", .vDoc (formRequestDoc S m))]) none)
      ∧ baseUpdateMany S m p
        = .ok (.updateMany (.vDoc (resolveProj S p))
               (.vDoc [("$set", .vDoc (formRequestDoc S m))]))) ∧
    (∀ (S : ModelClass) (m q : Option Doc) (opts : Option Doc),
      isEmptyVal (some (.vDoc (resolveProj S q))) = false →
      isEmptyVal (some (.vDoc (formRequestDoc S m))) = false →
      baseGetOneAndUpdate S m q opts
        = .ok (.findOneAndUpdate (.vDoc (resolveProj S q))
               (.vDoc [("$set", .vDoc (formRequestDoc S m))]) opts)) ∧
    (∀ (S : ModelClass) (m q : Option Doc) (opts : Doc),
      isEmptyVal (some (.vDoc (resolveProj S q))) = false →
      isEmptyVal (some (.vDoc (upsertFormRequestDoc S m))) = false →
      baseGetOneAndUpsert S m q opts
        = .ok (.findOneAndUpdate (.vDoc (resolveProj S q))
               (.vDoc (upsertFormRequestDoc S m))
               (some (setField "upsert" (Val.vBool true) opts)))) := by
  refine ⟨?_, ?_, ?_, ?_, ?_, ?_⟩
  · intro S form v opts h₁ h₂
    have hr : resolveWithIdBypass S form = [("_id", objectID v)] := by
      simp [resolveWithIdBypass, fieldTruthy, h₁, h₂]
    refine ⟨hr, ?_, ?_, ?_⟩
    · simp [baseGetOne, hr]
    · simp [baseExists, hr, isEmptyVal]
    · simp [baseDeleteOne, hr, isEmptyVal]
  · intro S p f h
    simp [resolveProj, h]
  · intro S p h
    simp [resolveProj, h]
  · intro S m p h₁ h₂
    constructor
    · simp [baseUpdateOne, h₁, h₂]
    · simp [baseUpdateMany, h₁, h₂]
  · intro S m q opts h₁ h₂
    simp [baseGetOneAndUpdate, h₁, h₂]
  · intro S m q opts h₁ h₂
    simp [baseGetOneAndUpsert, h₁, h₂]

/-- C2 witness: the bypass exercised against a schema that does define a
query projection — the projection is ignored when `_id` is present on
the read and delete paths. -/
theorem C2_witness :
    resolveWithIdBypass projSchema [("_id", Val.vStr "abc")]
      = [("_id", objectID (Val.vStr "abc"))]
    ∧ baseGetOne projSchema [("_id", Val.vStr "abc")] none
        = .ok (.findOne (.vDoc [("_id", objectID (Val.vStr "abc"))])
               (some (buildFindOptions projSchema none)))
    ∧ baseExists projSchema [("_id", Val.vStr "abc")]
        = .ok (.findLimitOneCount (.vDoc [("_id", objectID (Val.vStr "abc"))]))
    ∧ baseDeleteOne projSchema [("_id", Val.vStr "abc")]
        = .ok (.deleteOne (.vDoc [("_id", objectID (Val.vStr "abc"))])) :=
  C2_identity_resolution_amended.1 projSchema [("_id", Val.vStr "abc")]
    (Val.vStr "abc") none rfl (by decide)

/-- C10: `getOne` applies no empty-predicate guard — on a form without an
identifier whose resolved predicate is empty it issues a `findOne` with
the empty filter and resolves the store's result unchanged — whereas
`getOneSimple` on the same empty-resolving form raises a guard failure
before any store call. -/
theorem C10_getOne_unguarded (S : ModelClass) (form : Doc)
    (opts : Option QueryOpts)
    (h₁ : resolveWithIdBypass S form = [])
    (h₂ : toSimpleObject (some form) = []) :
    baseGetOne S form opts
      = .ok (.findOne (.vDoc []) (some (buildFindOptions S opts)))
    ∧ isGuardErr (baseGetOneSimple (some form)) = true
    ∧ (∀ r, baseGetOneResolve r = r) := by
  refine ⟨?_, ?_, fun r => rfl⟩
  · simp [baseGetOne, h₁]
  · simp [baseGetOneSimple, h₂, isEmptyVal, isGuardErr]

/-- C10 witness: the form `{a: null}` resolves to the empty predicate
under both the fallback projection and the shallow-copy resolution;
`getOne` issues the empty-filter `findOne` while `getOneSimple`
fails its guard. -/
theorem C10_witness :
    baseGetOne fallbackSchema [("a", Val.vNull)] none
      = .ok (.findOne (.vDoc []) (some (buildFindOptions fallbackSchema none)))
    ∧ isGuardErr (baseGetOneSimple (some [("a", Val.vNull)])) = true
    ∧ (∀ r, baseGetOneResolve r = r) :=
  C10_getOne_unguarded fallbackSchema [("a", Val.vNull)] none rfl rfl

/-- C1 counterexample: `updateOneSimple` with a present-but-empty query
object and an empty update form issues the store command instead of
raising a guard violation — the `Hoek.assert(query, ...)` guard only
rejects a null query, and the request document is never checked. -/
theorem C1_counterexample :
    baseUpdateOneSimple (some []) (some [])
      = .ok (.updateOne (.vDoc []) (.vDoc [("$set", Val.vDoc [])]) none) :=
  rfl

/-- C1 (amended): the empty-predicate/empty-document guard holds, raising
synchronously before any store command, for `insertOne`, `updateOne`,
`updateMany`, `upsertOne`, `getOneAndUpdate`, `getOneAndUpsert`,
`deleteOne`, `deleteOneSimple`, `deleteMany` and `deleteManySimple`;
but `updateOneSimple` only rejects a null query (a present empty query
and an empty document reach the store), `updateManySimple` checks the
raw query object rather than the resolved predicate (and never the
document), and the `UserActivityAdapter.upsertOne` override performs no
guard at all and always issues its store commands. -/
theorem C1_guards_amended :
    (∀ (S : ModelClass) (m : Option Doc),
      isEmptyVal (some (.vDoc (S.toInsertObject
          (applyBeforeSave S true (S.construct m))))) = true →
      isGuardErr (baseInsertOne S m) = true) ∧
    (∀ (S : ModelClass) (m p : Option Doc),
      (isEmptyVal (some (.vDoc (resolveProj S p))) = true
        ∨ isEmptyVal (some (.vDoc (formRequestDoc S m))) = true) →
      isGuardErr (baseUpdateOne S m p) = true) ∧
    (∀ (S : ModelClass) (m p : Option Doc),
      (isEmptyVal (some (.vDoc (resolveProj S p))) = true
        ∨ isEmptyVal (some (.vDoc (formRequestDoc S m))) = true) →
      isGuardErr (baseUpdateMany S m p) = true) ∧
    (∀ (S : ModelClass) (m : Option Doc),
      (isEmptyVal (lookupField "$setOnInsert" (upsertRequestDoc S m)) = true
        ∨ isEmptyVal (some (.vDoc (upsertRequestDoc S m))) = true) →
      isGuardErr (baseUpsertOne S m) = true) ∧
    (∀ (S : ModelClass) (m q opts₁ : Option Doc),
      (isEmptyVal (some (.vDoc (resolveProj S q))) = true
        ∨ isEmptyVal (some (.vDoc (formRequestDoc S m))) = true) →
      isGuardErr (baseGetOneAndUpdate S m q opts₁) = true) ∧
    (∀ (S : ModelClass) (m q : Option Doc) (opts₁ : Doc),
      (isEmptyVal (some (.vDoc (resolveProj S q))) = true
        ∨ isEmptyVal (some (.vDoc (upsertFormRequestDoc S m))) = true) →
      isGuardErr (baseGetOneAndUpsert S m q opts₁) = true) ∧
    (∀ (S : ModelClass) (form : Doc),
      isEmptyVal (some (.vDoc (resolveWithIdBypass S form))) = true →
      isGuardErr (baseDeleteOne S form) = true) ∧
    (∀ form : Option Doc,
      isEmptyVal (some (.vDoc (toSimpleObject form))) = true →
      isGuardErr (baseDeleteOneSimple form) = true) ∧
    (∀ (S : ModelClass) (form : Option Doc),
      isEmptyVal (some (.vDoc (resolveProj S form))) = true →
      isGuardErr (baseDeleteMany S form) = true) ∧
    (∀ form : Option Doc,
      isEmptyVal (some (.vDoc (toSimpleObject form))) = true →
      isGuardErr (baseDeleteManySimple form) = true) ∧
    (∀ f : Option Doc, isGuardErr (baseUpdateOneSimple f none) = true) ∧
    (∀ (f : Option Doc) (q : Doc),
      isGuardErr (baseUpdateOneSimple f (some q)) = false) ∧
    (∀ f q : Option Doc, isEmptyOptDoc q = true →
      isGuardErr (baseUpdateManySimple f q) = true) ∧
    (∀ f q : Option Doc, isEmptyOptDoc q = false →
      isGuardErr (baseUpdateManySimple f q) = false) ∧
    (∀ (S logS : ModelClass) (m : Option Doc) (o₁ : Except String Val)
        (o₂ : Except String String) (up : Except String UpdateResult),
      (uaUpsertOne S logS m o₁ o₂ up).cmds ≠ []) := by
  refine ⟨?_, ?_, ?_, ?_, ?_, ?_, ?_, ?_, ?_, ?_, ?_, ?_, ?_, ?_, ?_⟩
  · intro S m h
    simp [baseInsertOne, h, isGuardErr]
  · intro S m p h
    rcases h with h | h
    · simp [baseUpdateOne, h, isGuardErr]
    · cases hq : isEmptyVal (some (.vDoc (resolveProj S p))) <;>
        simp [baseUpdateOne, hq, h, isGuardErr]
  · intro S m p h
    rcases h with h | h
    · simp [baseUpdateMany, h, isGuardErr]
    · cases hq : isEmptyVal (some (.vDoc (resolveProj S p))) <;>
        simp [baseUpdateMany, hq, h, isGuardErr]
  · intro S m h
    rcases h with h | h
    · simp [baseUpsertOne, h, isGuardErr]
    · cases hq : isEmptyVal (lookupField "$setOnInsert" (upsertRequestDoc S m)) <;>
        simp [baseUpsertOne, hq, h, isGuardErr]
  · intro S m q opts₁ h
    rcases h with h | h
    · simp [baseGetOneAndUpdate, h, isGuardErr]
    · cases hq : isEmptyVal (some (.vDoc (resolveProj S q))) <;>
        simp [baseGetOneAndUpdate, hq, h, isGuardErr]
  · intro S m q opts₁ h
    rcases h with h | h
    · simp [baseGetOneAndUpsert, h, isGuardErr]
    · cases hq : isEmptyVal (some (.vDoc (resolveProj S q))) <;>
        simp [baseGetOneAndUpsert, hq, h, isGuardErr]
  · intro S form h
    simp [baseDeleteOne, h, isGuardErr]
  · intro form h
    simp [baseDeleteOneSimple, h, isGuardErr]
  · intro S form h
    simp [baseDeleteMany, h, isGuardErr]
  · intro form h
    simp [baseDeleteManySimple, h, isGuardErr]
  · intro f
    simp [baseUpdateOneSimple, isGuardErr]
  · intro f q
    simp [baseUpdateOneSimple, isGuardErr]
  · intro f q h
    simp [baseUpdateManySimple, h, isGuardErr]
  · intro f q h
    simp [baseUpdateManySimple, h, isGuardErr]
  · intro S logS m o₁ o₂ up
    cases up <;> simp [uaUpsertOne]

/-- C1 witness: a guarded operation failing fast on an empty document, the
two Simple update variants reaching the store despite an empty resolved
predicate, and the override issuing its commands unconditionally. -/
theorem C1_witness :
    isGuardErr (baseInsertOne fallbackSchema none) = true
    ∧ isGuardErr (baseUpdateOneSimple (some [("a", Val.vInt 1)]) (some [])) = false
    ∧ isGuardErr (baseUpdateManySimple (some []) (some [])) = true
    ∧ isGuardErr (baseUpdateManySimple (some []) (some [("a", Val.vNull)])) = false
    ∧ (uaUpsertOne fallbackSchema fallbackSchema none (Except.ok Val.vNull)
        (Except.ok "idx") (Except.error "dup")).cmds ≠ [] := by
  obtain ⟨p₁, _, _, _, _, _, _, _, _, _, _, pB, pC, pD, pE⟩ := C1_guards_amended
  exact ⟨p₁ fallbackSchema none rfl,
         pB (some [("a", Val.vInt 1)]) [],
         pC (some []) (some []) rfl,
         pD (some []) (some [("a", Val.vNull)]) rfl,
         pE fallbackSchema fallbackSchema none (Except.ok Val.vNull)
           (Except.ok "idx") (Except.error "dup")⟩
